import Mathlib

/-!
Verification of the `auto24-api` scraping client
(`src/auto24_api/auto24_api.py`) against its natural-language
specification.  Strings are modelled as `List Char`; external library
behaviour (the `json` module, BeautifulSoup queries, the HTTP session)
is embedded at the granularity the source code observes it.
-/

namespace Auto24

/-- Characters used for braces, kept as named constants. -/
def lbrace : Char := Char.ofNat 123

def rbrace : Char := Char.ofNat 125

/-- Python `str.startswith` on character lists (helper for `replaceAll`). -/
def prefixOf : List Char → List Char → Bool
  | [], _ => true
  | _ :: _, [] => false
  | p :: ps, c :: cs => p == c && prefixOf ps cs

/-- Worker for `replaceAll`; `f` is fuel, adequate whenever it is at
least the length of the input (each step consumes at least one
character). -/
def replaceAllF (pat rep : List Char) : Nat → List Char → List Char
  | 0, s => s
  | _ + 1, [] => []
  | f + 1, c :: cs =>
    if !pat.isEmpty && prefixOf pat (c :: cs) then
      rep ++ replaceAllF pat rep f ((c :: cs).drop pat.length)
    else
      c :: replaceAllF pat rep f cs

/-- Python `str.replace(pat, rep)` for a non-empty pattern: scans left to
right, replacing each non-overlapping occurrence of `pat` by `rep`. -/
def replaceAll (pat rep s : List Char) : List Char :=
  replaceAllF pat rep s.length s

/-- Does `pat` occur as a contiguous substring of `s`?  (`pat` non-empty
in all uses.) -/
def occurs (pat : List Char) : List Char → Bool
  | [] => prefixOf pat []
  | c :: cs => prefixOf pat (c :: cs) || occurs pat cs

/-- The JavaScript assignment head `window.INITIAL_STATE = `. -/
def jsAssignTok : List Char := String.toList "window.INITIAL_STATE = "

/-- The token `undefined`. -/
def undefTok : List Char := String.toList "undefined"

/-- The token `null`. -/
def nullTok : List Char := String.toList "null"

/-- The statement terminator `\x7d;`. -/
def termTok : List Char := [rbrace, ';']

/-- `Auto24API._parsejs_to_json`: three Python `str.replace` passes, each
replacing every occurrence of its pattern. -/
def parsejs_to_json (js : List Char) : List Char :=
  let js := replaceAll jsAssignTok [] js
  let js := replaceAll undefTok nullTok js
  let js := replaceAll termTok [rbrace] js
  js

/-- JSON documents as produced by Python `json.loads` (restricted to the
subset exercised by the scraper: integer numerals, no unicode escapes). -/
inductive Json where
  | obj (kvs : List (List Char × Json))
  | arr (xs : List Json)
  | str (cs : List Char)
  | num (n : Int)
  | bool (b : Bool)
  | null

/-- JSON whitespace: space, horizontal tab, line feed, carriage return. -/
def isWs (c : Char) : Bool :=
  [' ', Char.ofNat 9, Char.ofNat 10, Char.ofNat 13].contains c

def skipWs (s : List Char) : List Char := s.dropWhile isWs

/-- The JSON short escape table, as escape letter and denoted character. -/
def escPairs : List (Char × Char) :=
  [('"', '"'), ('\\', '\\'), ('/', '/'),
   ('b', Char.ofNat 8), ('f', Char.ofNat 12),
   ('n', Char.ofNat 10), ('r', Char.ofNat 13), ('t', Char.ofNat 9)]

/-- JSON string escape characters. -/
def escChar (e : Char) : Option Char := escPairs.lookup e

/-- Parse the remainder of a JSON string (the opening quote already
consumed), returning its contents and the input after the closing quote. -/
def parseStr : List Char → Option (List Char × List Char)
  | [] => none
  | '"' :: r => some ([], r)
  | '\\' :: r =>
    match r with
    | [] => none
    | e :: r2 =>
      match escChar e with
      | none => none
      | some ec => (parseStr r2).map fun p => (ec :: p.1, p.2)
  | c :: r => (parseStr r).map fun p => (c :: p.1, p.2)

/-- Decimal digit list to a natural number. -/
def digitsToNat (ds : List Char) : Nat :=
  ds.foldl (fun a c => a * 10 + (c.toNat - 48)) 0

/-- Parse an integer numeral starting at the head of the input.  Inputs
whose numeral continues with a fraction or exponent are outside the
modelled subset and rejected. -/
def parseNum (s : List Char) : Option (Json × List Char) :=
  let neg := s.headD ' ' = '-'
  let s1 := if neg then s.tail else s
  let ds := s1.takeWhile Char.isDigit
  let rest := s1.dropWhile Char.isDigit
  if ds = [] then none
  else if rest.headD ' ' = '.' ∨ rest.headD ' ' = 'e' ∨ rest.headD ' ' = 'E' then
    none
  else
    let v : Int := Int.ofNat (digitsToNat ds)
    some (.num (if neg then -v else v), rest)

mutual

/-- Parse one JSON value; `f` is fuel bounding the recursion depth. -/
def parseVal : Nat → List Char → Option (Json × List Char)
  | 0, _ => none
  | f + 1, s =>
    match skipWs s with
    | [] => none
    | c :: r =>
      if c = lbrace then parseObjRest f r
      else if c = '[' then parseArrRest f r
      else if c = '"' then (parseStr r).map fun p => (.str p.1, p.2)
      else if prefixOf nullTok (c :: r) then some (.null, (c :: r).drop 4)
      else if prefixOf (String.toList "true") (c :: r) then
        some (.bool true, (c :: r).drop 4)
      else if prefixOf (String.toList "false") (c :: r) then
        some (.bool false, (c :: r).drop 5)
      else parseNum (c :: r)

/-- Parse the remainder of an object (opening brace consumed). -/
def parseObjRest : Nat → List Char → Option (Json × List Char)
  | 0, _ => none
  | f + 1, s =>
    match skipWs s with
    | [] => none
    | c :: r =>
      if c = rbrace then some (.obj [], r)
      else
        (parseMembers f (c :: r)).map fun p => (.obj p.1, p.2)

/-- Parse a non-empty comma-separated member list, then the closing
brace. -/
def parseMembers : Nat → List Char → Option (List (List Char × Json) × List Char)
  | 0, _ => none
  | f + 1, s =>
    match skipWs s with
    | [] => none
    | c :: r =>
      if c = '"' then
        match parseStr r with
        | none => none
        | some (k, r2) =>
          match skipWs r2 with
          | ':' :: r3 =>
            match parseVal f r3 with
            | none => none
            | some (v, r4) =>
              match skipWs r4 with
              | ',' :: r5 =>
                (parseMembers f r5).map fun p => ((k, v) :: p.1, p.2)
              | c2 :: r5 =>
                if c2 = rbrace then some ([(k, v)], r5) else none
              | [] => none
          | _ => none
      else none

/-- Parse the remainder of an array (opening bracket consumed). -/
def parseArrRest : Nat → List Char → Option (Json × List Char)
  | 0, _ => none
  | f + 1, s =>
    match skipWs s with
    | ']' :: r => some (.arr [], r)
    | [] => none
    | s1 => (parseElems f s1).map fun p => (.arr p.1, p.2)

/-- Parse a non-empty comma-separated element list, then the closing
bracket. -/
def parseElems : Nat → List Char → Option (List Json × List Char)
  | 0, _ => none
  | f + 1, s =>
    match parseVal f s with
    | none => none
    | some (v, r) =>
      match skipWs r with
      | ',' :: r2 => (parseElems f r2).map fun p => (v :: p.1, p.2)
      | ']' :: r2 => some ([v], r2)
      | _ => none

end

/-- Python `json.loads` on the modelled subset: `none` corresponds to a
raised `json.JSONDecodeError`. -/
def parseJson (s : List Char) : Option Json :=
  match parseVal (s.length + 1) s with
  | some (v, rest) => if skipWs rest = [] then some v else none
  | none => none

/-- The exceptions the embedded code can raise.  The first three are the
typed errors of the library; the rest are untyped Python exceptions. -/
inductive PyExc where
  | invalidArgs (msg : List Char)
  | reCaptchaRequired
  | dataNotFound
  | jsonDecodeError
  | keyError (key : List Char)
  | typeError
  | attributeError (name : List Char)
  deriving DecidableEq, Repr

/-- Message of the InvalidArgsException raised for a bad locale. -/
def langErrMsg : List Char :=
  String.toList
    "The provided \x27lang\x27 is invalid. Choose from \x27fr\x27, \x27de\x27 and \x27it\x27."

/-- Message of the InvalidArgsException raised for a bad wait range. -/
def waitErrMsg : List Char :=
  String.toList
    ("The provided \x27wait_range\x27 is invalid. Length must be equal to 2 " ++
     "and first element must be greater than the second.")

/-- Constructor arguments of `Auto24API` that the claims observe.
Headers, proxies and the temp directory are opaque to every claim and
omitted. -/
structure Config where
  useSession : Bool
  bypassCaptcha : Bool
  waitRange : List Int
  maxRetries : Int
  lang : List Char

/-- `Auto24API.__init__`: the validation performed at construction time,
in source order (locale first, then wait range).  `.ok` means
construction completes without raising. -/
def auto24_init (cfg : Config) : Except PyExc Config :=
  if cfg.lang ∉ [String.toList "fr", String.toList "de", String.toList "it"] then
    .error (.invalidArgs langErrMsg)
  else if cfg.waitRange.length ≠ 2 ∨ cfg.waitRange.getD 0 0 > cfg.waitRange.getD 1 0 then
    .error (.invalidArgs waitErrMsg)
  else
    .ok cfg

/-- `Auto24API._LIST_URL`: LANG_MAP lookup; `none` is the `KeyError` a
missing key would raise (impossible after validation). -/
def LIST_URL (lang : List Char) : Option (List Char) :=
  let LANG_MAP : List (List Char × List Char) :=
    [(String.toList "fr", String.toList "fr/voitures"),
     (String.toList "de", String.toList "de/autos"),
     (String.toList "it", String.toList "it/automobili")]
  (LANG_MAP.lookup lang).map fun seg =>
    String.toList "https://www.autoscout24.ch/" ++ seg ++ String.toList "/s"

/-- Nodes of the parsed HTML document, at the granularity of the three
BeautifulSoup queries the source performs. -/
inductive Node where
  | divTag (id : Option (List Char))
  | titleTag (text : List Char)
  | scriptTag (id : Option (List Char)) (text : List Char)
  | otherTag
  deriving DecidableEq, Repr

/-- One HTTP response: the parsed document (`res.content` as seen by
BeautifulSoup) and the raw text (`res.text`). -/
structure Response where
  content : List Node
  text : List Char

/-- `soup.find("div", attrs=id captcha)` is truthy. -/
def findCaptchaDiv (doc : List Node) : Bool :=
  doc.any fun n =>
    match n with
    | .divTag (some i) => i == String.toList "captcha"
    | _ => false

/-- `soup.find("title", string Anti-Bot Captcha)` is truthy. -/
def findAntiBotTitle (doc : List Node) : Bool :=
  doc.any fun n =>
    match n with
    | .titleTag t => t == String.toList "Anti-Bot Captcha"
    | _ => false

/-- `soup.find("script", attrs=id initial-state)`: text of the first
matching script tag, if any. -/
def findInitialState (doc : List Node) : Option (List Char) :=
  doc.findSome? fun n =>
    match n with
    | .scriptTag (some i) t =>
      if i = String.toList "initial-state" then some t else none
    | _ => none

/-- Observable side effects of the fetcher. -/
inductive Event where
  | httpGet (url query : List Char)
  | saveSession
  | writeFile (name contents : List Char)
  | regenHeaders
  | sleepInRange (lo hi : Int)
  deriving DecidableEq, Repr

/-- `Auto24API._get`: one HTTP GET, followed by a session save exactly
when `use_session` is set. -/
def getEvents (cfg : Config) (url q : List Char) : List Event :=
  Event.httpGet url q :: (if cfg.useSession then [Event.saveSession] else [])

/-- The diagnostic file name. -/
def outHtml : List Char := String.toList "out.html"

/-- Python dict lookup after `json.loads` (a later duplicate key wins). -/
def lookupLast (k : List Char) : List (List Char × Json) → Option Json
  | [] => none
  | (k2, v) :: rest =>
    match lookupLast k rest with
    | some v2 => some v2
    | none => if k2 = k then some v else none

/-- Python subscript `data[k]` on a parsed JSON document: `KeyError` on a
missing key of a dict, `TypeError` on a non-dict. -/
def jsonIndex (v : Json) (k : List Char) : Except PyExc Json :=
  match v with
  | .obj ms =>
    match lookupLast k ms with
    | some x => .ok x
    | none => .error (.keyError k)
  | _ => .error .typeError

/-- The value returned by `search_list`. -/
structure Auto24APISearchResponse where
  raw : Json
  stats : Json
  search_results : Json

/-- Building the `Auto24APISearchResponse`: the source evaluates
`data["search"]["stats"]` and then `data["searchResults"]`, unguarded. -/
def extractResponse (data : Json) : Except PyExc Auto24APISearchResponse :=
  match jsonIndex data (String.toList "search") with
  | .error e => .error e
  | .ok s =>
    match jsonIndex s (String.toList "stats") with
    | .error e => .error e
    | .ok st =>
      match jsonIndex data (String.toList "searchResults") with
      | .error e => .error e
      | .ok sr => .ok ⟨data, st, sr⟩

/-- The two unguarded statements run once the script tag is found:
`data = json.loads(self._parsejs_to_json(script_tag.text))` followed by
the construction of the response from `data`. -/
def loadAndExtract (txt : List Char) : Except PyExc Auto24APISearchResponse :=
  match parseJson (parsejs_to_json txt) with
  | none => .error .jsonDecodeError
  | some data => extractResponse data

/-- One run of the `while tries < max_retries` loop of `search_list`.
`env i` is the server response to the request of attempt `i`; the fuel
argument is `max_retries - tries`, so the loop body runs while it is
positive.  Returns the outcome paired with the trace of side effects. -/
def search_listAux (cfg : Config) (env : Nat → Response) (queryStr : List Char) :
    Nat → Nat → Except PyExc Auto24APISearchResponse × List Event
  | 0, _ => (.error .dataNotFound, [])
  | gas + 1, attempt =>
    match LIST_URL cfg.lang with
    | none => (.error (.keyError cfg.lang), [])
    | some url =>
      let res := env attempt
      let evs := getEvents cfg url queryStr
      if findCaptchaDiv res.content || findAntiBotTitle res.content then
        (.error .reCaptchaRequired, evs)
      else
        match findInitialState res.content with
        | none =>
          let evs2 := evs ++
            [Event.writeFile outHtml res.text, Event.regenHeaders,
             Event.sleepInRange (cfg.waitRange.getD 0 0) (cfg.waitRange.getD 1 0)]
          let r := search_listAux cfg env queryStr gas (attempt + 1)
          (r.1, evs2 ++ r.2)
        | some txt =>
          match loadAndExtract txt with
          | .error e => (.error e, evs)
          | .ok resp => (.ok resp, evs)

/-- `Auto24API.search_list`: the loop starts at `tries = 0`; a negative
`max_retries` admits no iteration, like the Python `while`. -/
def search_list (cfg : Config) (env : Nat → Response) (queryStr : List Char) :
    Except PyExc Auto24APISearchResponse × List Event :=
  search_listAux cfg env queryStr cfg.maxRetries.toNat 0

/-- Attribute access `self.<name>` restricted to the URL-valued
properties the class defines: only `_LIST_URL` exists; any other name
raises `AttributeError`. -/
def getattrUrl (cfg : Config) (name : List Char) : Except PyExc (List Char) :=
  if name = String.toList "_LIST_URL" then
    match LIST_URL cfg.lang with
    | some u => .ok u
    | none => .error (.keyError cfg.lang)
  else
    .error (.attributeError name)

/-- `Auto24API.listing_details`: the source reads `self._BASE_URL` (an
attribute the class never defines) and, were that to succeed, would
perform one `_get` with the encoded query. -/
def listing_details (cfg : Config) (queryStr : List Char) :
    Except PyExc Unit × List Event :=
  match getattrUrl cfg (String.toList "_BASE_URL") with
  | .error e => (.error e, [])
  | .ok url => (.ok (), getEvents cfg url queryStr)

/-- Event classifiers used to state trace properties. -/
def isHttpGet : Event → Bool
  | .httpGet _ _ => true
  | _ => false

def isSaveSession : Event → Bool
  | .saveSession => true
  | _ => false

def isWriteFile : Event → Bool
  | .writeFile _ _ => true
  | _ => false

def isRegenHeaders : Event → Bool
  | .regenHeaders => true
  | _ => false

def isSleep : Event → Bool
  | .sleepInRange _ _ => true
  | _ => false

/-- Every `httpGet` in the trace is immediately followed by a session
save (the response is only examined after the save). -/
def savedAfterGets : List Event → Bool
  | [] => true
  | .httpGet _ _ :: rest =>
    match rest with
    | .saveSession :: _ => savedAfterGets rest
    | _ => false
  | _ :: rest => savedAfterGets rest

/-- The script text of the specification fixture. -/
def fixtureScript : List Char :=
  String.toList
    ("window.INITIAL_STATE = \x7b\"search\":\x7b\"stats\":\x7b\"count\":5" ++
     "\x7d\x7d,\"searchResults\":[\x7b\"id\":1\x7d]\x7d;")

/-- The stats sub-object of the fixture. -/
def fixtureStats : Json := .obj [(String.toList "count", .num 5)]

/-- The search-result list of the fixture. -/
def fixtureResults : Json := .arr [.obj [(String.toList "id", .num 1)]]

/-- The whole parsed fixture document. -/
def fixtureJson : Json :=
  .obj [(String.toList "search", .obj [(String.toList "stats", fixtureStats)]),
        (String.toList "searchResults", fixtureResults)]

/-- A script text whose value holds the terminator characters inside a
string literal. -/
def jsBraceExample : List Char :=
  String.toList "window.INITIAL_STATE = \x7b\"a\":\"\x7d;\"\x7d;"

/-- A script text with `undefined` in place of a value. -/
def jsUndefExample : List Char :=
  String.toList "window.INITIAL_STATE = \x7b\"a\":undefined\x7d;"

/-- A default-style configuration (session on, locale fr). -/
def cfgDefault : Config :=
  { useSession := true, bypassCaptcha := false, waitRange := [2, 5],
    maxRetries := 3, lang := String.toList "fr" }

/-- The same configuration with the session toggle off. -/
def cfgNoSess : Config :=
  { useSession := false, bypassCaptcha := false, waitRange := [2, 5],
    maxRetries := 3, lang := String.toList "fr" }

/-- An environment answering every attempt with the fixture page. -/
def envFixture : Nat → Response :=
  fun _ => ⟨[Node.scriptTag (some (String.toList "initial-state")) fixtureScript], []⟩

/-- An environment answering every attempt with a captcha page. -/
def envCaptcha : Nat → Response :=
  fun _ => ⟨[Node.divTag (some (String.toList "captcha"))], String.toList "blocked"⟩

/-- An environment answering every attempt with an empty page. -/
def envEmpty : Nat → Response :=
  fun i => ⟨[Node.otherTag], String.toList "page" ++ String.toList (toString i)⟩

/-- The fr listing URL. -/
def urlFr : List Char := String.toList "https://www.autoscout24.ch/fr/voitures/s"

/-- The side effects of one failed (missing script tag) attempt: the GET
(with its session save), the diagnostic write of the raw body, the header
regeneration and the randomized sleep. -/
def failBlock (cfg : Config) (url q : List Char) (r : Response) : List Event :=
  getEvents cfg url q ++
    [Event.writeFile outHtml r.text, Event.regenHeaders,
     Event.sleepInRange (cfg.waitRange.getD 0 0) (cfg.waitRange.getD 1 0)]

/-- A script text whose payload is an empty object. -/
def emptyStateScript : List Char := String.toList "window.INITIAL_STATE = \x7b\x7d;"

/-- An environment answering every attempt with the empty-object page. -/
def envEmptyState : Nat → Response :=
  fun _ => ⟨[Node.scriptTag (some (String.toList "initial-state")) emptyStateScript], []⟩

/-- The default configuration with a zero retry budget. -/
def cfgZeroRetries : Config :=
  { useSession := true, bypassCaptcha := false, waitRange := [2, 5],
    maxRetries := 0, lang := String.toList "fr" }

/-- The default configuration with an unsupported locale. -/
def cfgLangEn : Config :=
  { useSession := true, bypassCaptcha := false, waitRange := [2, 5],
    maxRetries := 3, lang := String.toList "en" }

/-- The default configuration with inverted wait bounds. -/
def cfgBadWait : Config :=
  { useSession := true, bypassCaptcha := false, waitRange := [5, 2],
    maxRetries := 3, lang := String.toList "fr" }

/-! Helper lemmas about `replaceAllF`. -/

theorem replaceAllF_nil (pat rep : List Char) (f : Nat) :
    replaceAllF pat rep f [] = [] := by
  cases f <;> rfl

theorem occurs_cons_false {pat : List Char} {c : Char} {cs : List Char}
    (h : occurs pat (c :: cs) = false) :
    prefixOf pat (c :: cs) = false ∧ occurs pat cs = false := by
  simpa [occurs] using h

theorem replaceAllF_no_occ (pat rep : List Char) :
    ∀ (f : Nat) (s : List Char), occurs pat s = false → replaceAllF pat rep f s = s := by
  intro f
  induction f with
  | zero => intro s _; rfl
  | succ g ih =>
    intro s h
    cases s with
    | nil => rfl
    | cons c cs =>
      obtain ⟨h1, h2⟩ := occurs_cons_false h
      simp only [replaceAllF]
      rw [h1]
      simp [ih cs h2]

theorem replaceAll_no_occ (pat rep s : List Char) (h : occurs pat s = false) :
    replaceAll pat rep s = s :=
  replaceAllF_no_occ pat rep s.length s h

theorem prefixOf_append_self (p s : List Char) : prefixOf p (p ++ s) = true := by
  induction p with
  | nil => rfl
  | cons c cs ih => simp [prefixOf, ih]

theorem replaceAll_strip_lead (pat rep rest : List Char) (hp : pat ≠ [])
    (hocc : occurs pat rest = false) :
    replaceAll pat rep (pat ++ rest) = rep ++ rest := by
  cases pat with
  | nil => exact absurd rfl hp
  | cons p ps =>
    show replaceAllF (p :: ps) rep ((p :: ps) ++ rest).length ((p :: ps) ++ rest) = rep ++ rest
    have hlen : ((p :: ps) ++ rest).length = (ps ++ rest).length + 1 := by simp
    rw [hlen]
    unfold replaceAllF
    have hpre : prefixOf (p :: ps) ((p :: ps) ++ rest) = true := prefixOf_append_self _ _
    simp only [List.cons_append] at hpre ⊢
    rw [hpre]
    simp only [List.isEmpty_cons, Bool.not_false, Bool.and_true, Bool.true_and, if_true]
    have hdrop : (p :: (ps ++ rest)).drop (p :: ps).length = rest := by
      have h := List.drop_left (p :: ps) rest
      simp only [List.cons_append] at h
      exact h
    rw [hdrop, replaceAllF_no_occ _ _ _ _ hocc]

theorem replaceAllF_term (body : List Char) (hocc : occurs termTok body = false) :
    ∀ f, body.length + 1 ≤ f →
      replaceAllF termTok [rbrace] f (body ++ termTok) = body ++ [rbrace] := by
  induction body with
  | nil =>
    intro f hf
    match f, hf with
    | g + 1, _ =>
      show replaceAllF termTok [rbrace] (g + 1) ([] ++ termTok) = [] ++ [rbrace]
      simp only [List.nil_append]
      rw [show termTok = rbrace :: [';'] from rfl]
      simp only [replaceAllF]
      rw [if_pos (by decide)]
      simp [replaceAllF_nil]
  | cons c body2 ih =>
    intro f hf
    obtain ⟨h1, h2⟩ := occurs_cons_false hocc
    match f, hf with
    | g + 1, hf =>
      have hg : body2.length + 1 ≤ g := by
        simp only [List.length_cons] at hf
        omega
      show replaceAllF termTok [rbrace] (g + 1) ((c :: body2) ++ termTok) =
        (c :: body2) ++ [rbrace]
      have hcond : prefixOf termTok (c :: (body2 ++ termTok)) = false := by
        by_cases hc : c = rbrace
        · subst hc
          cases body2 with
          | nil => decide
          | cons d rest =>
            simp only [termTok, prefixOf, List.cons_append] at h1 ⊢
            simpa using h1
        · have : (rbrace == c) = false := by
            simp only [beq_eq_false_iff_ne, ne_eq]
            exact fun h => hc h.symm
          simp [termTok, prefixOf, this]
      simp only [List.cons_append, replaceAllF, List.append_eq]
      rw [hcond]
      simp only [Bool.and_false, Bool.false_eq_true, if_false]
      rw [show body2 ++ termTok = body2 ++ termTok from rfl, ih h2 g hg]

theorem replaceAll_strip_term (body : List Char) (hocc : occurs termTok body = false) :
    replaceAll termTok [rbrace] (body ++ termTok) = body ++ [rbrace] := by
  have hlen : body.length + 1 ≤ (body ++ termTok).length := by
    simp only [List.length_append, termTok]
    simp
  exact replaceAllF_term body hocc _ hlen

/-! Helper lemmas about error shapes and the fetch loop. -/

theorem jsonIndex_error_shape :
    ∀ (v : Json) (k : List Char) (e : PyExc),
      jsonIndex v k = .error e → e = .keyError k ∨ e = .typeError := by
  intro v k e h
  cases v with
  | obj ms =>
    simp only [jsonIndex] at h
    cases hl : lookupLast k ms with
    | some x => rw [hl] at h; simp at h
    | none => rw [hl] at h; simp at h; exact Or.inl h.symm
  | arr xs => simp [jsonIndex] at h; exact Or.inr h.symm
  | str s => simp [jsonIndex] at h; exact Or.inr h.symm
  | num n => simp [jsonIndex] at h; exact Or.inr h.symm
  | bool b => simp [jsonIndex] at h; exact Or.inr h.symm
  | null => simp [jsonIndex] at h; exact Or.inr h.symm

theorem extract_error_shape (d : Json) (e : PyExc)
    (h : extractResponse d = .error e) :
    (∃ k, e = .keyError k) ∨ e = .typeError := by
  unfold extractResponse at h
  cases h1 : jsonIndex d (String.toList "search") with
  | error e1 =>
    rw [h1] at h
    simp at h
    subst h
    rcases jsonIndex_error_shape _ _ _ h1 with hk | ht
    · exact Or.inl ⟨_, hk⟩
    · exact Or.inr ht
  | ok s =>
    simp only [h1] at h
    cases h2 : jsonIndex s (String.toList "stats") with
    | error e2 =>
      simp only [h2] at h
      simp at h
      subst h
      rcases jsonIndex_error_shape _ _ _ h2 with hk | ht
      · exact Or.inl ⟨_, hk⟩
      · exact Or.inr ht
    | ok st =>
      simp only [h2] at h
      cases h3 : jsonIndex d (String.toList "searchResults") with
      | error e3 =>
        simp only [h3] at h
        simp at h
        subst h
        rcases jsonIndex_error_shape _ _ _ h3 with hk | ht
        · exact Or.inl ⟨_, hk⟩
        · exact Or.inr ht
      | ok sr =>
        simp only [h3] at h
        simp at h

theorem loadAndExtract_error_shape (txt : List Char) (e : PyExc)
    (h : loadAndExtract txt = .error e) :
    e = .jsonDecodeError ∨ (∃ k, e = .keyError k) ∨ e = .typeError := by
  unfold loadAndExtract at h
  cases hp : parseJson (parsejs_to_json txt) with
  | none => rw [hp] at h; simp at h; exact Or.inl h.symm
  | some d =>
    rw [hp] at h
    rcases extract_error_shape d e h with hk | ht
    · exact Or.inr (Or.inl hk)
    · exact Or.inr (Or.inr ht)

theorem search_listAux_all_missing (cfg : Config) (env : Nat → Response)
    (q url : List Char) (hurl : LIST_URL cfg.lang = some url)
    (hresp : ∀ i, findCaptchaDiv (env i).content = false ∧
        findAntiBotTitle (env i).content = false ∧
        findInitialState (env i).content = none) :
    ∀ gas attempt,
      search_listAux cfg env q gas attempt =
        (.error .dataNotFound,
          (List.range gas).flatMap fun i => failBlock cfg url q (env (attempt + i))) := by
  intro gas
  induction gas with
  | zero => intro attempt; simp [search_listAux]
  | succ g ih =>
    intro attempt
    simp only [search_listAux, hurl]
    simp only [(hresp attempt).1, (hresp attempt).2.1, (hresp attempt).2.2,
      Bool.or_self, Bool.false_eq_true, if_false]
    rw [ih (attempt + 1)]
    rw [List.range_succ_eq_map, List.flatMap_cons, List.flatMap_map]
    have hidx : ∀ i : Nat, attempt + 1 + i = attempt + Nat.succ i := fun i => by omega
    simp only [hidx, Nat.add_zero, failBlock]

theorem countP_flatMap_range (p : Event → Bool) (f : Nat → List Event) (k : Nat)
    (hk : ∀ i, (f i).countP p = k) (n : Nat) :
    ((List.range n).flatMap f).countP p = n * k := by
  induction n with
  | zero => simp
  | succ m ih =>
    rw [List.range_succ, List.flatMap_append, List.countP_append, ih]
    simp [hk, Nat.succ_mul]

theorem failBlock_countP_httpGet (cfg : Config) (url q : List Char) (r : Response) :
    (failBlock cfg url q r).countP isHttpGet = 1 := by
  cases hs : cfg.useSession <;>
    simp [failBlock, getEvents, hs, List.countP_cons, isHttpGet]

theorem search_listAux_saved (cfg : Config) (h : cfg.useSession = true)
    (env : Nat → Response) (q : List Char) :
    ∀ gas attempt, savedAfterGets (search_listAux cfg env q gas attempt).2 = true := by
  intro gas
  induction gas with
  | zero => intro attempt; rfl
  | succ g ih =>
    intro attempt
    simp only [search_listAux]
    cases hu : LIST_URL cfg.lang with
    | none => simp [savedAfterGets]
    | some url =>
      cases hcap : (findCaptchaDiv (env attempt).content ||
          findAntiBotTitle (env attempt).content) with
      | true => simp [hcap, getEvents, h, savedAfterGets]
      | false =>
        cases hfind : findInitialState (env attempt).content with
        | none =>
          simp only [hcap, hfind, Bool.false_eq_true, if_false]
          simp [getEvents, h, savedAfterGets, ih (attempt + 1)]
        | some txt =>
          cases hload : loadAndExtract txt with
          | error e => simp [hcap, hfind, hload, getEvents, h, savedAfterGets]
          | ok r => simp [hcap, hfind, hload, getEvents, h, savedAfterGets]

theorem search_listAux_nosave (cfg : Config) (h : cfg.useSession = false)
    (env : Nat → Response) (q : List Char) :
    ∀ gas attempt,
      ((search_listAux cfg env q gas attempt).2).countP isSaveSession = 0 := by
  intro gas
  induction gas with
  | zero => intro attempt; rfl
  | succ g ih =>
    intro attempt
    simp only [search_listAux]
    cases hu : LIST_URL cfg.lang with
    | none => simp
    | some url =>
      cases hcap : (findCaptchaDiv (env attempt).content ||
          findAntiBotTitle (env attempt).content) with
      | true => simp [hcap, getEvents, h, List.countP_cons, isSaveSession]
      | false =>
        cases hfind : findInitialState (env attempt).content with
        | none =>
          simp only [hcap, hfind, Bool.false_eq_true, if_false]
          simp [getEvents, h, List.countP_cons, List.countP_append, isSaveSession,
            ih (attempt + 1)]
        | some txt =>
          cases hload : loadAndExtract txt with
          | error e =>
            simp [hcap, hfind, hload, getEvents, h, List.countP_cons, isSaveSession]
          | ok r =>
            simp [hcap, hfind, hload, getEvents, h, List.countP_cons, isSaveSession]

/-! The claim theorems. -/

/-- C1: for every response without a captcha marker whose initial-state
script text is exactly the fixture assignment, `search_list` returns on
the first attempt (one GET, no retry) a response whose stats equal the
object with count 5 and whose search results equal the one-element list
with id 1. -/
theorem search_list_fixture_first_attempt (cfg : Config) (env : Nat → Response)
    (q url : List Char) (hurl : LIST_URL cfg.lang = some url)
    (hmr : 1 ≤ cfg.maxRetries)
    (hc1 : findCaptchaDiv (env 0).content = false)
    (hc2 : findAntiBotTitle (env 0).content = false)
    (hscript : findInitialState (env 0).content = some fixtureScript) :
    search_list cfg env q =
      (.ok ⟨fixtureJson, fixtureStats, fixtureResults⟩, getEvents cfg url q) := by
  unfold search_list
  have h0 : cfg.maxRetries.toNat = (cfg.maxRetries.toNat - 1) + 1 := by omega
  rw [h0]
  simp only [search_listAux, hurl]
  simp only [hc1, hc2, Bool.or_self, Bool.false_eq_true, if_false, hscript]
  rw [show loadAndExtract fixtureScript =
    .ok ⟨fixtureJson, fixtureStats, fixtureResults⟩ from rfl]

/-- C1 witness: the theorem applied to the default configuration and an
environment serving the fixture page. -/
theorem search_list_fixture_first_attempt_wit :
    search_list cfgDefault envFixture [] =
      (.ok ⟨fixtureJson, fixtureStats, fixtureResults⟩, getEvents cfgDefault urlFr []) :=
  search_list_fixture_first_attempt cfgDefault envFixture [] urlFr rfl
    (by decide) rfl rfl rfl

/-- C2 counterexample: the cleanup is a global replace, not a
prefix/suffix strip: a terminator sequence inside a string value is also
rewritten, and an arbitrary script text does not clean up to valid
JSON. -/
theorem parsejs_global_replace_cex :
    parsejs_to_json jsBraceExample = String.toList "\x7b\"a\":\"\x7d\"\x7d" ∧
    parsejs_to_json jsBraceExample ≠ String.toList "\x7b\"a\":\"\x7d;\"\x7d" ∧
    parseJson (parsejs_to_json (String.toList "x")) = none :=
  ⟨rfl, by decide, rfl⟩

/-- C2 amended: the cleanup replaces every occurrence of the assignment
head, of `undefined` and of the terminator; on a payload of the expected
shape whose body holds none of the three tokens it therefore strips the
head, keeps the body and turns the trailing terminator into a closing
brace, and on the undefined-payload example it yields valid JSON in which
the token became null. -/
theorem parsejs_clean_payload (body : List Char)
    (h1 : occurs jsAssignTok (body ++ termTok) = false)
    (h2 : occurs undefTok (body ++ termTok) = false)
    (h3 : occurs termTok body = false) :
    parsejs_to_json (jsAssignTok ++ body ++ termTok) = body ++ [rbrace] ∧
    parsejs_to_json jsUndefExample = String.toList "\x7b\"a\":null\x7d" ∧
    parseJson (parsejs_to_json jsUndefExample) =
      some (.obj [(String.toList "a", .null)]) := by
  refine ⟨?_, rfl, rfl⟩
  show replaceAll termTok [rbrace]
      (replaceAll undefTok nullTok
        (replaceAll jsAssignTok [] (jsAssignTok ++ body ++ termTok))) =
    body ++ [rbrace]
  rw [List.append_assoc]
  rw [replaceAll_strip_lead _ _ _ (by decide) h1]
  simp only [List.nil_append]
  rw [replaceAll_no_occ _ _ _ h2]
  exact replaceAll_strip_term body h3

/-- C2 witness: the amended theorem applied to the body of a small clean
payload. -/
theorem parsejs_clean_payload_wit :
    parsejs_to_json (jsAssignTok ++ String.toList "\x7b\"a\":null" ++ termTok) =
      String.toList "\x7b\"a\":null" ++ [rbrace] ∧
    parsejs_to_json jsUndefExample = String.toList "\x7b\"a\":null\x7d" ∧
    parseJson (parsejs_to_json jsUndefExample) =
      some (.obj [(String.toList "a", .null)]) :=
  parsejs_clean_payload (String.toList "\x7b\"a\":null")
    (by decide) (by decide) (by decide)

/-- C3: a response carrying a captcha marker makes `search_list` raise
ReCaptchaRequired on the first attempt: one GET, no diagnostic write, no
header regeneration, no sleep. -/
theorem search_list_captcha_first_attempt (cfg : Config) (env : Nat → Response)
    (q url : List Char) (hurl : LIST_URL cfg.lang = some url)
    (hmr : 1 ≤ cfg.maxRetries)
    (hcap : findCaptchaDiv (env 0).content = true ∨
      findAntiBotTitle (env 0).content = true) :
    search_list cfg env q = (.error .reCaptchaRequired, getEvents cfg url q) ∧
    (search_list cfg env q).2.countP isHttpGet = 1 ∧
    (search_list cfg env q).2.countP isWriteFile = 0 ∧
    (search_list cfg env q).2.countP isRegenHeaders = 0 ∧
    (search_list cfg env q).2.countP isSleep = 0 := by
  have hmain : search_list cfg env q = (.error .reCaptchaRequired, getEvents cfg url q) := by
    unfold search_list
    have h0 : cfg.maxRetries.toNat = (cfg.maxRetries.toNat - 1) + 1 := by omega
    rw [h0]
    simp only [search_listAux, hurl]
    have hc : (findCaptchaDiv (env 0).content || findAntiBotTitle (env 0).content) = true := by
      rcases hcap with h | h <;> simp [h]
    simp [hc]
  refine ⟨hmain, ?_, ?_, ?_, ?_⟩ <;> rw [hmain] <;> cases hs : cfg.useSession <;>
    simp [getEvents, hs, List.countP_cons, isHttpGet, isWriteFile, isRegenHeaders, isSleep]

/-- C3 witness: the theorem applied to the default configuration and a
captcha page. -/
theorem search_list_captcha_first_attempt_wit :
    search_list cfgDefault envCaptcha [] =
      (.error .reCaptchaRequired, getEvents cfgDefault urlFr []) ∧
    (search_list cfgDefault envCaptcha []).2.countP isHttpGet = 1 ∧
    (search_list cfgDefault envCaptcha []).2.countP isWriteFile = 0 ∧
    (search_list cfgDefault envCaptcha []).2.countP isRegenHeaders = 0 ∧
    (search_list cfgDefault envCaptcha []).2.countP isSleep = 0 :=
  search_list_captcha_first_attempt cfgDefault envCaptcha [] urlFr rfl
    (by decide) (Or.inl rfl)

/-- C4: when every response lacks both a captcha marker and the
initial-state script tag, `search_list` raises DataNotFound after exactly
`max_retries` attempts, and each attempt performs the GET, writes the raw
body to out.html, regenerates the headers and sleeps within the wait
range. -/
theorem search_list_all_missing_dnf (cfg : Config) (env : Nat → Response)
    (q url : List Char) (hurl : LIST_URL cfg.lang = some url)
    (hmr : 1 ≤ cfg.maxRetries)
    (hresp : ∀ i, findCaptchaDiv (env i).content = false ∧
        findAntiBotTitle (env i).content = false ∧
        findInitialState (env i).content = none) :
    search_list cfg env q =
      (.error .dataNotFound,
        (List.range cfg.maxRetries.toNat).flatMap fun i => failBlock cfg url q (env i)) ∧
    (cfg.maxRetries.toNat : Int) = cfg.maxRetries ∧
    (search_list cfg env q).2.countP isHttpGet = cfg.maxRetries.toNat := by
  have hmain := search_listAux_all_missing cfg env q url hurl hresp
    cfg.maxRetries.toNat 0
  simp only [Nat.zero_add] at hmain
  refine ⟨hmain, by omega, ?_⟩
  unfold search_list
  rw [show search_listAux cfg env q cfg.maxRetries.toNat 0 = _ from hmain]
  have := countP_flatMap_range isHttpGet (fun i => failBlock cfg url q (env i)) 1
    (fun i => failBlock_countP_httpGet cfg url q (env i)) cfg.maxRetries.toNat
  simpa using this

/-- C4 witness: the theorem applied to the default configuration and an
environment always lacking the script tag. -/
theorem search_list_all_missing_dnf_wit :
    search_list cfgDefault envEmpty [] =
      (.error .dataNotFound,
        (List.range cfgDefault.maxRetries.toNat).flatMap fun i =>
          failBlock cfgDefault urlFr [] (envEmpty i)) ∧
    (cfgDefault.maxRetries.toNat : Int) = cfgDefault.maxRetries ∧
    (search_list cfgDefault envEmpty []).2.countP isHttpGet =
      cfgDefault.maxRetries.toNat :=
  search_list_all_missing_dnf cfgDefault envEmpty [] urlFr rfl (by decide)
    (fun _ => ⟨rfl, rfl, rfl⟩)

/-- C5: construction rejects any locale outside fr, de, it with the
locale InvalidArgs message, and never raises that locale error for a
locale inside the set. -/
theorem init_lang_check (cfg : Config) :
    (cfg.lang ∉ [String.toList "fr", String.toList "de", String.toList "it"] →
      auto24_init cfg = .error (.invalidArgs langErrMsg)) ∧
    (cfg.lang ∈ [String.toList "fr", String.toList "de", String.toList "it"] →
      auto24_init cfg ≠ .error (.invalidArgs langErrMsg)) := by
  constructor
  · intro h
    unfold auto24_init
    rw [if_pos h]
  · intro h
    unfold auto24_init
    rw [if_neg (not_not_intro h)]
    split
    · intro hcontra
      injection hcontra with h2
      injection h2 with h3
      exact absurd h3 (by decide)
    · intro hcontra
      exact Except.noConfusion hcontra

/-- C5 witness: the theorem applied to an unsupported and to a supported
locale. -/
theorem init_lang_check_wit :
    auto24_init cfgLangEn = .error (.invalidArgs langErrMsg) ∧
    auto24_init cfgDefault ≠ .error (.invalidArgs langErrMsg) :=
  ⟨(init_lang_check cfgLangEn).1 (by decide),
   (init_lang_check cfgDefault).2 (by decide)⟩

/-- C6: with a valid locale, construction rejects a wait range of length
other than two or with inverted bounds, and accepts a length-two range
with ordered bounds. -/
theorem init_wait_range_check (cfg : Config)
    (hlang : cfg.lang ∈ [String.toList "fr", String.toList "de", String.toList "it"]) :
    ((cfg.waitRange.length ≠ 2 ∨ cfg.waitRange.getD 0 0 > cfg.waitRange.getD 1 0) →
      auto24_init cfg = .error (.invalidArgs waitErrMsg)) ∧
    ((cfg.waitRange.length = 2 ∧ cfg.waitRange.getD 0 0 ≤ cfg.waitRange.getD 1 0) →
      auto24_init cfg = .ok cfg) := by
  constructor
  · intro h
    unfold auto24_init
    rw [if_neg (not_not_intro hlang), if_pos h]
  · intro h
    unfold auto24_init
    rw [if_neg (not_not_intro hlang), if_neg (by push_neg; exact ⟨h.1, h.2⟩)]

/-- C6 witness: the theorem applied to an inverted and to an ordered wait
range. -/
theorem init_wait_range_check_wit :
    auto24_init cfgBadWait = .error (.invalidArgs waitErrMsg) ∧
    auto24_init cfgDefault = .ok cfgDefault :=
  ⟨(init_wait_range_check cfgBadWait (by decide)).1 (by decide),
   (init_wait_range_check cfgDefault (by decide)).2 (by decide)⟩

/-- C7 counterexample: with the session toggle off, a request is issued
but the session is never persisted, so the session file is not written on
each request. -/
theorem session_save_cex :
    (search_list cfgNoSess envFixture []).2.countP isHttpGet = 1 ∧
    (search_list cfgNoSess envFixture []).2.countP isSaveSession = 0 :=
  ⟨rfl, rfl⟩

/-- C7 amended: when `use_session` is enabled, every GET issued by
`search_list` is immediately followed by a session save, before the
response is examined (and `listing_details`, which issues no GET, has the
property vacuously); when `use_session` is disabled no session save ever
occurs. -/
theorem session_saved_after_get (cfg : Config) (env : Nat → Response) (q : List Char) :
    (cfg.useSession = true →
      savedAfterGets (search_list cfg env q).2 = true ∧
      savedAfterGets (listing_details cfg q).2 = true) ∧
    (cfg.useSession = false →
      (search_list cfg env q).2.countP isSaveSession = 0 ∧
      (listing_details cfg q).2.countP isSaveSession = 0) := by
  constructor
  · intro h
    exact ⟨search_listAux_saved cfg h env q _ _, rfl⟩
  · intro h
    exact ⟨search_listAux_nosave cfg h env q _ _, rfl⟩

/-- C7 witness: the amended theorem applied with the session toggle on
and off. -/
theorem session_saved_after_get_wit :
    savedAfterGets (search_list cfgDefault envEmpty []).2 = true ∧
    (search_list cfgNoSess envEmpty []).2.countP isSaveSession = 0 :=
  ⟨((session_saved_after_get cfgDefault envEmpty []).1 rfl).1,
   ((session_saved_after_get cfgNoSess envEmpty []).2 rfl).1⟩

/-- C8: `listing_details` reads the undefined attribute `_BASE_URL` and
therefore raises AttributeError before issuing any request, for every
configuration and query. -/
theorem listing_details_attribute_error (cfg : Config) (q : List Char) :
    listing_details cfg q =
      (.error (.attributeError (String.toList "_BASE_URL")), []) := rfl

/-- C9: once the script tag is found, a cleanup/parse/lookup failure
surfaces as an untyped exception (JSONDecodeError, KeyError or TypeError,
never one of the three typed errors) on the first attempt, with no
further attempt consumed. -/
theorem search_list_untyped_exc (cfg : Config) (env : Nat → Response)
    (q url txt : List Char) (e : PyExc)
    (hurl : LIST_URL cfg.lang = some url)
    (hmr : 1 ≤ cfg.maxRetries)
    (hc1 : findCaptchaDiv (env 0).content = false)
    (hc2 : findAntiBotTitle (env 0).content = false)
    (hscript : findInitialState (env 0).content = some txt)
    (hbad : loadAndExtract txt = .error e) :
    (search_list cfg env q).1 = .error e ∧
    (e = .jsonDecodeError ∨ (∃ k, e = .keyError k) ∨ e = .typeError) ∧
    e ≠ .reCaptchaRequired ∧ e ≠ .dataNotFound ∧ (∀ m, e ≠ .invalidArgs m) ∧
    (search_list cfg env q).2 = getEvents cfg url q := by
  have hshape := loadAndExtract_error_shape txt e hbad
  have hmain : search_list cfg env q = (.error e, getEvents cfg url q) := by
    unfold search_list
    have h0 : cfg.maxRetries.toNat = (cfg.maxRetries.toNat - 1) + 1 := by omega
    rw [h0]
    simp only [search_listAux, hurl]
    simp only [hc1, hc2, Bool.or_self, Bool.false_eq_true, if_false, hscript, hbad]
  refine ⟨by rw [hmain], hshape, ?_, ?_, ?_, by rw [hmain]⟩
  · rcases hshape with h | ⟨k, h⟩ | h <;> subst h <;> simp
  · rcases hshape with h | ⟨k, h⟩ | h <;> subst h <;> simp
  · intro m
    rcases hshape with h | ⟨k, h⟩ | h <;> subst h <;> simp

/-- C9 witness: the theorem applied to a page whose payload is an empty
object, so the search key is missing and a KeyError surfaces. -/
theorem search_list_untyped_exc_wit :
    (search_list cfgDefault envEmptyState []).1 =
      .error (.keyError (String.toList "search")) ∧
    (.keyError (String.toList "search") = PyExc.jsonDecodeError ∨
      (∃ k, PyExc.keyError (String.toList "search") = .keyError k) ∨
      PyExc.keyError (String.toList "search") = .typeError) ∧
    PyExc.keyError (String.toList "search") ≠ .reCaptchaRequired ∧
    PyExc.keyError (String.toList "search") ≠ .dataNotFound ∧
    (∀ m, PyExc.keyError (String.toList "search") ≠ .invalidArgs m) ∧
    (search_list cfgDefault envEmptyState []).2 = getEvents cfgDefault urlFr [] :=
  search_list_untyped_exc cfgDefault envEmptyState [] urlFr emptyStateScript
    (.keyError (String.toList "search")) rfl (by decide) rfl rfl rfl rfl

/-- C10: a non-positive retry budget makes `search_list` raise
DataNotFound immediately, with an empty trace: no request, no file write,
no sleep. -/
theorem search_list_nonpositive_retries (cfg : Config) (env : Nat → Response)
    (q : List Char) (h : cfg.maxRetries ≤ 0) :
    search_list cfg env q = (.error .dataNotFound, []) := by
  unfold search_list
  have h0 : cfg.maxRetries.toNat = 0 := by omega
  rw [h0]
  rfl

/-- C10 witness: the theorem applied to a zero retry budget. -/
theorem search_list_nonpositive_retries_wit :
    search_list cfgZeroRetries envEmpty [] = (.error .dataNotFound, []) :=
  search_list_nonpositive_retries cfgZeroRetries envEmpty [] (by decide)

end Auto24
